import Mathlib

/- Shallow embedding of the APIC VLAN validation tool
   (src/src/utils/apicParser.ts and the CSV-export helper inside
   src/src/App.tsx), together with theorems settling the specification
   claims about it.  JavaScript strings are modelled as Lean `String`,
   JS `Map`/`Set` as insertion-ordered lists, and each regular
   expression of the source as an explicit executable matcher with the
   leftmost-match/greedy semantics of the JS engine on that pattern. -/

namespace Apic

/-- The `status` field of a `ValidationResult`: `'allowed' | 'not_allowed'`. -/
inductive Status where
  | allowed
  | not_allowed
deriving DecidableEq, Repr, BEq

/-- `EndpointData` from apicParser.ts.  The object literal returned by
`parseEndpointOutput` also carries `pathsWithNodes` and `pathsWithIPs`
(path-to-node and path-to-IP maps), modelled as association lists. -/
structure EndpointData where
  vlan : String
  ip : String
  paths : List String
  pod : String
  pathsWithNodes : List (String × String)
  pathsWithIPs : List (String × String)
deriving DecidableEq, Repr

/-- `PathAttachment` from apicParser.ts. -/
structure PathAttachment where
  vlan : String
  epg : String
  path : String
  fullPath : String
  pod : String
deriving DecidableEq, Repr

/-- `ValidationResult` from apicParser.ts. -/
structure ValidationResult where
  path : String
  hasActiveEndpoint : Bool
  isVlanAllowed : Bool
  status : Status
deriving DecidableEq, Repr

/-- A JavaScript `Map` with string keys: an insertion-ordered association
list.  `set` overwrites in place, `get` returns the stored value. -/
abbrev JSMap (α : Type) : Type := List (String × α)

/-- `Map.prototype.set`: overwrite the entry in place if the key is
present (keeping its position), else append a new entry. -/
def jsSet {α : Type} (m : JSMap α) (k : String) (v : α) : JSMap α :=
  if m.any (fun p => p.1 == k) then
    m.map (fun p => if p.1 == k then (k, v) else p)
  else m ++ [(k, v)]

/-- `Map.prototype.get` (as an `Option`). -/
def jsGet {α : Type} (m : JSMap α) (k : String) : Option α :=
  (m.find? (fun p => p.1 == k)).map (fun p => p.2)

/-- `Map.prototype.has`. -/
def jsHas {α : Type} (m : JSMap α) (k : String) : Bool :=
  (jsGet m k).isSome

/-- `l.forEach(a => m.set(key a, a))` starting from an empty map. -/
def buildMap {α : Type} (key : α → String) (l : List α) : JSMap α :=
  l.foldl (fun m a => jsSet m (key a) a) []

/-- JavaScript `String.prototype.trim`: drop whitespace from both ends
(kept kernel-reducible by working on the character list). -/
def jsTrim (s : String) : String :=
  String.mk (((s.data.dropWhile Char.isWhitespace).reverse.dropWhile
    Char.isWhitespace).reverse)

/-- One step of JavaScript `String.prototype.split('\n')` over the
character list: `acc` holds the current line reversed. -/
def splitLinesAux : List Char → List Char → List String
  | [], acc => [String.mk acc.reverse]
  | c :: rest, acc =>
    if c = '\n' then String.mk acc.reverse :: splitLinesAux rest []
    else splitLinesAux rest (c :: acc)

/-- JavaScript `s.split('\n')` (always at least one piece; `"" ↦ [""]`). -/
def jsLines (s : String) : List String :=
  splitLinesAux s.data []

/-- `normalizePathName` from apicParser.ts:
`path.trim().replace(/[\x5b\x5d]/g, '').toLowerCase()` —
trim, drop square brackets, lowercase. -/
def normalizePathName (path : String) : String :=
  String.mk (((jsTrim path).data.filter
    (fun c => !(c == '[' || c == ']'))).map Char.toLower)

/-- `validateVlanAllowances` from apicParser.ts: filter the attachments to
those whose `vlan` equals the endpoint's, key them by normalized path in
a JS map, and emit one result per endpoint path in order. -/
def validateVlanAllowances (endpointData : EndpointData)
    (pathAttachments : List PathAttachment) : List ValidationResult :=
  let filteredAttachments :=
    pathAttachments.filter (fun att => att.vlan == endpointData.vlan)
  let allowedPathsMap :=
    buildMap (fun att => normalizePathName att.path) filteredAttachments
  endpointData.paths.map (fun path =>
    let normalizedPath := normalizePathName path
    let isAllowed := jsHas allowedPathsMap normalizedPath
    { path := path
      hasActiveEndpoint := true
      isVlanAllowed := isAllowed
      status := if isAllowed then Status.allowed else Status.not_allowed })

/-! ### Character-level matchers for the source's regular expressions -/

/-- Leftmost-match scan of a JS regex: try the matcher at every start
position, earliest success wins. -/
def scanFirst {α : Type} (f : List Char → Option α) : List Char → Option α
  | [] => f []
  | c :: cs =>
    match f (c :: cs) with
    | some r => some r
    | none => scanFirst f cs

/-- Case-insensitive literal: if `s` starts with `pat` (given lowercase),
return the rest, else fail. -/
def dropCi (pat : List Char) (s : List Char) : Option (List Char) :=
  if ((s.take pat.length).map Char.toLower) == pat then some (s.drop pat.length)
  else none

/-- Captures of the moquery distinguished-name regexes: EPG name, pod,
protpaths/paths identifier, path name. -/
structure DnMatch where
  epg : String
  pod : String
  ident : String
  pathName : String
deriving DecidableEq, Repr

/-- The two distinguished-name regexes of `parseMoqueryOutput`, tried at
one start position.  With `vpc = true` this is the `/i`-flagged pattern
`dn\s*:\s*uni\/tn-[^\/]+\/ap-[^\/]+\/epg-([^\/]+)\/rspathAtt-\[topology\/(pod-\d+)\/protpaths-([\d()X-]+)\/pathep-\[([^\x5d]+)\]\]`;
with `vpc = false` the variant with `paths-([\d()X]+)`.  Every quantified
piece of these patterns is delimited by a character excluded from its
class, so the JS backtracking search is deterministic and each capture is
the maximal run. -/
def matchDnAt (vpc : Bool) (s : List Char) : Option DnMatch :=
  match dropCi ['d', 'n'] s with
  | none => none
  | some t0 =>
    match t0.dropWhile Char.isWhitespace with
    | ':' :: t2 =>
      let t3 := t2.dropWhile Char.isWhitespace
      match dropCi ("uni/tn-".data) t3 with
      | none => none
      | some t4 =>
        let tn := t4.takeWhile (fun c => c != '/')
        if tn.isEmpty then none else
        match dropCi ("/ap-".data) (t4.drop tn.length) with
        | none => none
        | some t5 =>
          let ap := t5.takeWhile (fun c => c != '/')
          if ap.isEmpty then none else
          match dropCi ("/epg-".data) (t5.drop ap.length) with
          | none => none
          | some t6 =>
            let epg := t6.takeWhile (fun c => c != '/')
            if epg.isEmpty then none else
            match dropCi ("/rspathatt-[topology/".data) (t6.drop epg.length) with
            | none => none
            | some t7 =>
              match dropCi ("pod-".data) t7 with
              | none => none
              | some t8 =>
                let podDigits := t8.takeWhile Char.isDigit
                if podDigits.isEmpty then none else
                let pod := t7.take 4 ++ podDigits
                let t9 := t8.drop podDigits.length
                match dropCi (if vpc then "/protpaths-".data else "/paths-".data) t9 with
                | none => none
                | some t10 =>
                  let ident := t10.takeWhile (fun c =>
                    c.isDigit || c == '(' || c == ')' || c.toLower == 'x'
                      || (vpc && c == '-'))
                  if ident.isEmpty then none else
                  match dropCi ("/pathep-[".data) (t10.drop ident.length) with
                  | none => none
                  | some t11 =>
                    let pathName := t11.takeWhile (fun c => c != ']')
                    if pathName.isEmpty then none else
                    if (t11.drop pathName.length).take 2 == [']', ']'] then
                      some { epg := String.mk epg, pod := String.mk pod,
                             ident := String.mk ident,
                             pathName := String.mk pathName }
                    else none
    | _ => none

/-- `extractVlanFromEpg` from apicParser.ts: digits of the first
`VLAN<digits>` token (case-insensitive), else the empty string. -/
def extractVlanFromEpg (epgName : String) : String :=
  match scanFirst (fun s =>
    match dropCi ("vlan".data) s with
    | none => none
    | some t =>
      let ds := t.takeWhile Char.isDigit
      if ds.isEmpty then none else some ds) epgName.data with
  | some ds => String.mk ds
  | none => ""

/-- `extractPathName` from apicParser.ts (the identity). -/
def extractPathName (path : String) : String :=
  path

/-- Body of the `if (dnMatch)` block of `parseMoqueryOutput`: reconstruct
`fullPath` from the captures and push the record when the EPG carries a
VLAN and the path name is non-empty. -/
def mkAttachment (isVpc : Bool) (m : DnMatch) : Option PathAttachment :=
  let vlan := extractVlanFromEpg m.epg
  let fullPath :=
    if isVpc then m.pod ++ "/protpaths-" ++ m.ident ++ "/pathep-[" ++ m.pathName ++ "]"
    else m.pod ++ "/paths-" ++ m.ident ++ "/pathep-[" ++ m.pathName ++ "]"
  if vlan != "" && m.pathName != "" then
    some { vlan := vlan, epg := m.epg, path := m.pathName,
           fullPath := fullPath, pod := m.pod }
  else none

/-- One loop iteration of `parseMoqueryOutput`: skip blank lines, try the
VPC (protpaths) pattern first, then the single-path pattern; a line that
matches neither contributes nothing. -/
def parseMoqueryLine (line : String) : Option PathAttachment :=
  if jsTrim line == "" then none
  else
    match scanFirst (matchDnAt true) line.data with
    | some m => mkAttachment true m
    | none =>
      match scanFirst (matchDnAt false) line.data with
      | some m => mkAttachment false m
      | none => none

/-- `parseMoqueryOutput` from apicParser.ts: trim, split into lines, and
collect the per-line records in order. -/
def parseMoqueryOutput (input : String) : List PathAttachment :=
  (jsLines (jsTrim input)).filterMap parseMoqueryLine

/-! ### CSV export (generateCSV in apicParser.ts, export loop in App.tsx) -/

/-- `listStarts pat s`: does `s` start with `pat` (case-sensitive)? -/
def listStarts : List Char → List Char → Bool
  | [], _ => true
  | _ :: _, [] => false
  | p :: ps, c :: cs => p == c && listStarts ps cs

/-- Helper for `strIncludes`: does `pat` occur in the list? -/
def strIncludesAux (pat : List Char) : List Char → Bool
  | [] => pat.isEmpty
  | c :: cs => listStarts pat (c :: cs) || strIncludesAux pat cs

/-- JavaScript `String.prototype.includes` (case-sensitive substring). -/
def strIncludes (s pat : String) : Bool :=
  strIncludesAux pat.data s.data

/-- The character class `[\d()X]` of the case-sensitive patterns in
`generateCSV`. -/
def csvClass (c : Char) : Bool :=
  c.isDigit || c == '(' || c == ')' || c == 'X'

/-- `([\d()X]+)-([\d()X]+)-VPC` at one position (each `+` is delimited by
a character outside the class, so the greedy JS search is deterministic:
both captures are maximal class runs). -/
def matchVpcNodesAt (s : List Char) : Option (String × String) :=
  let r1 := s.takeWhile csvClass
  if r1.isEmpty then none else
  match s.drop r1.length with
  | '-' :: t =>
    let r2 := t.takeWhile csvClass
    if r2.isEmpty then none else
    if (t.drop r2.length).take 4 == ['-', 'V', 'P', 'C'] then
      some (String.mk r1, String.mk r2)
    else none
  | _ => none

/-- Leftmost match of `/([\d()X]+)-([\d()X]+)-VPC/` (generateCSV). -/
def vpcNodesOf (pathName : String) : Option (String × String) :=
  scanFirst matchVpcNodesAt pathName.data

/-- `protpaths-([\d()X]+)-([\d()X]+)` at one position. -/
def matchProtpathsAt (s : List Char) : Option (String × String) :=
  if s.take 10 == ("protpaths-".data) then
    let t := s.drop 10
    let r1 := t.takeWhile csvClass
    if r1.isEmpty then none else
    match t.drop r1.length with
    | '-' :: u =>
      let r2 := u.takeWhile csvClass
      if r2.isEmpty then none else some (String.mk r1, String.mk r2)
    | _ => none
  else none

/-- Leftmost match of `/protpaths-([\d()X]+)-([\d()X]+)/` on a fullPath. -/
def protpathsCapture (fullPath : String) : Option (String × String) :=
  scanFirst matchProtpathsAt fullPath.data

/-- `paths-([\d()X]+)\/` at one position. -/
def matchPathsNodeAt (s : List Char) : Option String :=
  if s.take 6 == ("paths-".data) then
    let t := s.drop 6
    let r1 := t.takeWhile csvClass
    if r1.isEmpty then none else
    match t.drop r1.length with
    | '/' :: _ => some (String.mk r1)
    | _ => none
  else none

/-- Leftmost match of `/paths-([\d()X]+)\//` on a fullPath. -/
def pathsNodeCapture (fullPath : String) : Option String :=
  scanFirst matchPathsNodeAt fullPath.data

/-- Anchored `/^([\d()X]+)[-\/]/` (generateCSV single-path shape). -/
def singleNodeOf (pathName : String) : Option String :=
  let r1 := pathName.data.takeWhile csvClass
  if r1.isEmpty then none else
  match pathName.data.drop r1.length with
  | '-' :: _ => some (String.mk r1)
  | '/' :: _ => some (String.mk r1)
  | _ => none

/-- `defaultPod` of `generateCSV`: pod of the first attachment whose vlan
equals the argument, else the literal `pod-1`. -/
def defaultPodOf (vlan : String) (pathAttachments : List PathAttachment) : String :=
  let vlanAttachments := pathAttachments.filter (fun att => att.vlan == vlan)
  match vlanAttachments with
  | [] => "pod-1"
  | a :: _ => a.pod

/-- The VPC pod-recovery loop of `generateCSV` (`for ... break`): the
first attachment whose `fullPath` matches `protpaths-<a>-<b>` with
`a = node1` and `b = node2` supplies its pod; otherwise the incoming
default is kept. -/
def findProtpathsPod : List PathAttachment → String → String → String → String
  | [], _, _, pod => pod
  | att :: rest, node1, node2, pod =>
    match protpathsCapture att.fullPath with
    | some (a, b) =>
      if a == node1 && b == node2 then att.pod
      else findProtpathsPod rest node1 node2 pod
    | none => findProtpathsPod rest node1 node2 pod

/-- The single-path pod-recovery loop of `generateCSV`. -/
def findPathsPod : List PathAttachment → String → String → String
  | [], _, pod => pod
  | att :: rest, node, pod =>
    match pathsNodeCapture att.fullPath with
    | some a => if a == node then att.pod else findPathsPod rest node pod
    | none => findPathsPod rest node pod

/-- The row `generateCSV` constructs for one denied path name (the body
of its `notAllowedPaths.map` arrow function, with the `moqueryMap` and
`defaultPod` it closes over). -/
def generateCSVRow (vlan epg : String) (pathAttachments : List PathAttachment)
    (pathName : String) : String :=
  let moqueryMap := buildMap (fun att => normalizePathName att.path) pathAttachments
  let defaultPod := defaultPodOf vlan pathAttachments
  let normalizedPathName := normalizePathName pathName
  match jsGet moqueryMap normalizedPathName with
  | some moqueryData => vlan ++ "," ++ epg ++ "," ++ moqueryData.fullPath
  | none =>
    match vpcNodesOf pathName with
    | some (node1, node2) =>
      let pod := findProtpathsPod pathAttachments node1 node2 defaultPod
      vlan ++ "," ++ epg ++ "," ++ pod ++ "/protpaths-" ++ node1 ++ "-" ++ node2
        ++ "/pathep-[" ++ pathName ++ "]"
    | none =>
      match singleNodeOf pathName with
      | some node =>
        let pod := findPathsPod pathAttachments node defaultPod
        vlan ++ "," ++ epg ++ "," ++ pod ++ "/paths-" ++ node
          ++ "/pathep-[" ++ pathName ++ "]"
      | none =>
        vlan ++ "," ++ epg ++ "," ++ defaultPod ++ "/paths-XXX/pathep-["
          ++ pathName ++ "]"

/-- `generateCSV` from apicParser.ts (the `endpointData` parameter is
taken but never read by the source body). -/
def generateCSV (vlan epg : String) (results : List ValidationResult)
    (endpointData : EndpointData)
    (pathAttachments : List PathAttachment) : String :=
  let header := "VLAN,EPG,PATH"
  let notAllowedPaths := (results.filter
    (fun r => r.status == Status.not_allowed)).map (fun r => r.path)
  let rows := notAllowedPaths.map (generateCSVRow vlan epg pathAttachments)
  header ++ "\n" ++ String.intercalate "\n" rows

/-- Anchored `/^(\d+)[-\/]/` of the App.tsx export loop (digits only). -/
def appSingleNodeOf (path : String) : Option String :=
  let r1 := path.data.takeWhile Char.isDigit
  if r1.isEmpty then none else
  match path.data.drop r1.length with
  | '-' :: _ => some (String.mk r1)
  | '/' :: _ => some (String.mk r1)
  | _ => none

/-- `/(\d+)-(\d+)-VPC/` of the App.tsx export loop at one position. -/
def matchAppVpcAt (s : List Char) : Option (String × String) :=
  let r1 := s.takeWhile Char.isDigit
  if r1.isEmpty then none else
  match s.drop r1.length with
  | '-' :: t =>
    let r2 := t.takeWhile Char.isDigit
    if r2.isEmpty then none else
    if (t.drop r2.length).take 4 == ['-', 'V', 'P', 'C'] then
      some (String.mk r1, String.mk r2)
    else none
  | _ => none

/-- Leftmost match of `/(\d+)-(\d+)-VPC/` (App.tsx export loop). -/
def appVpcNodesOf (path : String) : Option (String × String) :=
  scanFirst matchAppVpcAt path.data

/-- The row the per-denied-path reconstruction loop inside
`handleExportAllCSV` (src/src/App.tsx) pushes for one denied result path:
pod defaults to the literal `pod-2`, is replaced by the pod of the FIRST
attachment whose normalized path equals the normalized result path, and
the fully-qualified path is rebuilt from the digit-only VPC or
single-path shape of the result path. -/
def appExportRow (vlanNumber epgFormatted : String)
    (pathAttachments : List PathAttachment) (resultPath : String) : String :=
  let normalizedPathName := normalizePathName resultPath
  let pod := match pathAttachments.find? (fun attachment =>
      normalizePathName attachment.path == normalizedPathName) with
    | some attachment => attachment.pod
    | none => "pod-2"
  match appVpcNodesOf resultPath with
  | some (node1, node2) =>
    vlanNumber ++ "," ++ epgFormatted ++ "," ++ pod ++ "/protpaths-" ++ node1
      ++ "-" ++ node2 ++ "/pathep-[" ++ resultPath ++ "]"
  | none =>
    match appSingleNodeOf resultPath with
    | some node =>
      vlanNumber ++ "," ++ epgFormatted ++ "," ++ pod ++ "/paths-" ++ node
        ++ "/pathep-[" ++ resultPath ++ "]"
    | none =>
      vlanNumber ++ "," ++ epgFormatted ++ "," ++ pod ++ "/paths-XXX/pathep-["
        ++ resultPath ++ "]"

/-! ### Endpoint parser (parseEndpointOutput in apicParser.ts) -/

/-- JS `\w` (word character, for `\b` boundaries): `[A-Za-z0-9_]`. -/
def isWordChar (c : Char) : Bool :=
  c.isAlphanum || c == '_'

/-- One `\d{1,3}` octet followed by a delimiter outside `\d`: the maximal
digit run, which must have length 1..3 (any shorter prefix of the run
ends at a digit, so JS backtracking cannot produce another split). -/
def ipOctet (s : List Char) : Option (List Char × List Char) :=
  let r := s.takeWhile Char.isDigit
  if 1 ≤ r.length ∧ r.length ≤ 3 then some (r, s.drop r.length) else none

/-- `(\d{1,3}\.\d{1,3}\.\d{1,3}\.\d{1,3})\b` at one position (the leading
`\b` is checked by the caller from the previous character). -/
def matchIpAt (s : List Char) : Option (List Char) :=
  match ipOctet s with
  | none => none
  | some (o1, t1) =>
    match t1 with
    | '.' :: t1' =>
      match ipOctet t1' with
      | none => none
      | some (o2, t2) =>
        match t2 with
        | '.' :: t2' =>
          match ipOctet t2' with
          | none => none
          | some (o3, t3) =>
            match t3 with
            | '.' :: t3' =>
              match ipOctet t3' with
              | none => none
              | some (o4, t4) =>
                match t4 with
                | [] => some (o1 ++ '.' :: o2 ++ '.' :: o3 ++ '.' :: o4)
                | c :: _ =>
                  if isWordChar c then none
                  else some (o1 ++ '.' :: o2 ++ '.' :: o3 ++ '.' :: o4)
            | _ => none
        | _ => none
    | _ => none

/-- Leftmost `\b`-anchored scan for the dotted-quad IP pattern of
`parseEndpointOutput`, tracking the previous character. -/
def findIpAux (prev : Option Char) : List Char → Option (List Char)
  | [] => none
  | c :: cs =>
    let bOk := match prev with
      | none => true
      | some pc => !isWordChar pc
    match (if bOk then matchIpAt (c :: cs) else none) with
    | some ip => some ip
    | none => findIpAux (some c) cs

/-- Leftmost match of `/\b(\d{1,3}\.\d{1,3}\.\d{1,3}\.\d{1,3})\b/`. -/
def findIp (line : String) : Option String :=
  (findIpAux none line.data).map String.mk

/-- `vlan-(\d+)` (case-insensitive) at one position: the digits capture. -/
def matchVlanAt (s : List Char) : Option (List Char) :=
  match dropCi ("vlan-".data) s with
  | none => none
  | some t =>
    let ds := t.takeWhile Char.isDigit
    if ds.isEmpty then none else some ds

/-- Leftmost match of `/vlan-(\d+)/i`, returning the digit capture. -/
def findVlan (line : String) : Option String :=
  (scanFirst matchVlanAt line.data).map String.mk

/-- `(\d+)\s+(eth\d+\/\d+)\s+.*vlan-(\d+)` (case-insensitive) at one
position: maximal digit run, whitespace, `eth<digits>/<digits>`,
whitespace, then (via the greedy `.*`) a `vlan-<digits>` token anywhere
later in the line.  Returns the node and interface captures. -/
def matchNodeInterfaceAt (s : List Char) : Option (List Char × List Char) :=
  let node := s.takeWhile Char.isDigit
  if node.isEmpty then none else
  let t1 := s.drop node.length
  let ws1 := t1.takeWhile Char.isWhitespace
  if ws1.isEmpty then none else
  let t2 := t1.drop ws1.length
  match dropCi ("eth".data) t2 with
  | none => none
  | some t3 =>
    let d1 := t3.takeWhile Char.isDigit
    if d1.isEmpty then none else
    match t3.drop d1.length with
    | '/' :: t4 =>
      let d2 := t4.takeWhile Char.isDigit
      if d2.isEmpty then none else
      match t4.drop d2.length with
      | c :: t6 =>
        if c.isWhitespace && (scanFirst matchVlanAt t6).isSome then
          some (node, t2.take 3 ++ d1 ++ '/' :: d2)
        else none
      | [] => none
    | _ => none

/-- Second quantified piece of VPC pattern 1, `[\d-]+-PG` (with `/i`):
greedy split of the class run, longest capture first. -/
def vpc1TailSplit : Nat → List Char → List Char → Option (List Char)
  | 0, _, _ => none
  | j + 1, run, rest =>
    let rem := run.drop (j + 1) ++ rest
    if ((rem.take 3).map Char.toLower) == ("-pg".data) then
      some (run.take (j + 1) ++ rem.take 3)
    else vpc1TailSplit j run rest

/-- `[\d-]+-PG` (with `/i`) anchored at `t`. -/
def vpc1TailAt (t : List Char) : Option (List Char) :=
  let run := t.takeWhile (fun c => c.isDigit || c == '-')
  vpc1TailSplit run.length run (t.drop run.length)

/-- First quantified piece of VPC pattern 1, `[\d-]+-VPC-` followed by the
tail: greedy split, longest capture first, with full backtracking into
the tail. -/
def vpc1BodySplit : Nat → List Char → List Char → Option (List Char)
  | 0, _, _ => none
  | k + 1, run, rest =>
    let rem := run.drop (k + 1) ++ rest
    match (if ((rem.take 5).map Char.toLower) == ("-vpc-".data) then
        vpc1TailAt (rem.drop 5) else none) with
    | some tail => some (run.take (k + 1) ++ rem.take 5 ++ tail)
    | none => vpc1BodySplit k run rest

/-- The capture `([\d-]+-VPC-[\d-]+-PG)` (with `/i`) anchored at `t`. -/
def vpc1CaptureAt (t : List Char) : Option (List Char) :=
  let run := t.takeWhile (fun c => c.isDigit || c == '-')
  vpc1BodySplit run.length run (t.drop run.length)

/-- VPC pattern 1, `/vpc\s+([\d-]+-VPC-[\d-]+-PG)/i`, at one position. -/
def matchVpc1At (s : List Char) : Option (List Char) :=
  match dropCi ("vpc".data) s with
  | none => none
  | some t =>
    let ws := t.takeWhile Char.isWhitespace
    if ws.isEmpty then none else
    vpc1CaptureAt (t.drop ws.length)

/-- The core `[\d]+-[\d]+-VPC-[\d]+-[\d]+-PG` (with `/i`) of VPC patterns
2 and 3 at one position; every digit run is delimited by a non-digit, so
the match is deterministic.  Returns the capture and the rest. -/
def matchVpc2Core (s : List Char) : Option (List Char × List Char) :=
  let d1 := s.takeWhile Char.isDigit
  if d1.isEmpty then none else
  match s.drop d1.length with
  | '-' :: t1 =>
    let d2 := t1.takeWhile Char.isDigit
    if d2.isEmpty then none else
    let t2 := t1.drop d2.length
    if ((t2.take 5).map Char.toLower) == ("-vpc-".data) then
      let t3 := t2.drop 5
      let d3 := t3.takeWhile Char.isDigit
      if d3.isEmpty then none else
      match t3.drop d3.length with
      | '-' :: t4 =>
        let d4 := t4.takeWhile Char.isDigit
        if d4.isEmpty then none else
        let t5 := t4.drop d4.length
        if ((t5.take 3).map Char.toLower) == ("-pg".data) then
          some (d1 ++ '-' :: d2 ++ t2.take 5 ++ d3 ++ '-' :: d4 ++ t5.take 3,
                t5.drop 3)
        else none
      | _ => none
    else none
  | _ => none

/-- VPC pattern 2, `/\b([\d]+-[\d]+-VPC-[\d]+-[\d]+-PG)\b/i`: leftmost
scan with both word boundaries checked. -/
def findVpc2Aux (prev : Option Char) : List Char → Option (List Char)
  | [] => none
  | c :: cs =>
    let bOk := match prev with
      | none => true
      | some pc => !isWordChar pc
    match (if bOk then matchVpc2Core (c :: cs) else none) with
    | some (cap, rest) =>
      match rest with
      | [] => some cap
      | r :: _ => if isWordChar r then findVpc2Aux (some c) cs else some cap
    | none => findVpc2Aux (some c) cs

/-- VPC pattern 3, `/([\d]+-[\d]+-VPC-[\d]+-[\d]+-PG)/i` (no boundaries),
at one position. -/
def matchVpc3At (s : List Char) : Option (List Char) :=
  (matchVpc2Core s).map (fun pr => pr.1)

/-- The `vpcPatterns` loop of `parseEndpointOutput`: the three patterns
are tried in order and the first pattern that matches the line supplies
the capture (`break`). -/
def vpcCaptureOfLine (line : List Char) : Option (List Char) :=
  match scanFirst matchVpc1At line with
  | some cap => some cap
  | none =>
    match findVpc2Aux none line with
    | some cap => some cap
    | none => scanFirst matchVpc3At line

/-- The mutable state of the `parseEndpointOutput` line loop. -/
structure EPState where
  vlan : String
  defaultIp : String
  pathSet : List String
  pathNodeMap : JSMap String
  pathIPMap : JSMap String
deriving DecidableEq, Repr

/-- Loop state at entry of `parseEndpointOutput`. -/
def initEPState : EPState :=
  { vlan := "", defaultIp := "", pathSet := [], pathNodeMap := [],
    pathIPMap := [] }

/-- JS `Set.prototype.add`: keep insertion order, ignore duplicates. -/
def setAdd (s : List String) (x : String) : List String :=
  if s.contains x then s else s ++ [x]

/-- One iteration of the `for (const line of lines)` loop of
`parseEndpointOutput`: skip blank lines and lines containing both `Node`
and `Interface` (the source's `includes` calls are case-sensitive);
otherwise extract the line's IP, VLAN, node/interface path and VPC path
in the source's order. -/
def processEndpointLine (st : EPState) (line : String) : EPState :=
  if jsTrim line == ""
      || (strIncludes line "Node" && strIncludes line "Interface") then
    st
  else
    let currentLineIP := match findIp line with
      | some ip => ip
      | none => ""
    let st1 := if currentLineIP != "" && st.defaultIp == "" then
        { st with defaultIp := currentLineIP }
      else st
    let st2 := match findVlan line with
      | some v => if st1.vlan == "" then { st1 with vlan := v } else st1
      | none => st1
    let st3 := match scanFirst matchNodeInterfaceAt line.data with
      | some (node, interface_) =>
        let stN := { st2 with
          pathSet := setAdd st2.pathSet (String.mk interface_)
          pathNodeMap := jsSet st2.pathNodeMap (String.mk interface_)
            (String.mk node) }
        if currentLineIP != "" then
          let m := jsSet stN.pathIPMap (String.mk interface_) currentLineIP
          { stN with pathIPMap := m }
        else stN
      | none => st2
    match vpcCaptureOfLine line.data with
    | some vpcPath =>
      let stV := { st3 with pathSet := setAdd st3.pathSet (String.mk vpcPath) }
      if currentLineIP != "" then
        let m := jsSet stV.pathIPMap (String.mk vpcPath) currentLineIP
        { stV with pathIPMap := m }
      else stV
    | none => st3

/-- The whole line loop of `parseEndpointOutput` over the trimmed, split
input. -/
def endpointScan (input : String) : EPState :=
  (jsLines (jsTrim input)).foldl processEndpointLine initEPState

/-- `parseEndpointOutput` from apicParser.ts: run the line loop, then
return a record iff a VLAN was found and the path set is non-empty. -/
def parseEndpointOutput (input : String) : Option EndpointData :=
  let st := endpointScan input
  if st.vlan != "" && st.pathSet.length > 0 then
    some { vlan := st.vlan, ip := st.defaultIp, paths := st.pathSet,
           pod := "", pathsWithNodes := st.pathNodeMap,
           pathsWithIPs := st.pathIPMap }
  else none

/-! ### Lemmas about the JS map model -/

theorem find?_jsSetMap_self {α : Type} (m : JSMap α) (k : String) (v : α) :
    (m.map (fun p => if p.1 == k then (k, v) else p)).find? (fun p => p.1 == k)
      = if m.any (fun p => p.1 == k) then some (k, v) else none := by
  rw [List.find?_map]
  have hpred : ((fun p => p.1 == k) ∘ (fun p : String × α =>
      if p.1 == k then (k, v) else p)) = (fun p : String × α => p.1 == k) := by
    funext p
    by_cases hp : (p.1 == k) = true
    · simp [Function.comp, hp]
    · have hp' : (p.1 == k) = false := by simpa using hp
      simp [Function.comp, hp']
  rw [hpred]
  by_cases hany : (m.any fun p => p.1 == k) = true
  · obtain ⟨q, hmem, hq⟩ := List.any_eq_true.mp hany
    cases hfind : m.find? (fun p => p.1 == k) with
    | none =>
      exfalso
      have hs := (@List.find?_isSome (String × α) m (fun p => p.1 == k)).mpr
        ⟨q, hmem, hq⟩
      rw [hfind] at hs
      simp at hs
    | some q' =>
      have hq' := List.find?_some hfind
      have hq'k : q'.1 = k := by simpa using hq'
      simp [hany, hq'k]
  · have hany' : (m.any fun p => p.1 == k) = false := by
      cases hb : (m.any fun p => p.1 == k) with
      | true => exact absurd hb hany
      | false => rfl
    cases hfind : m.find? (fun p => p.1 == k) with
    | none => rw [hany']; simp
    | some q' =>
      exact absurd (List.any_eq_true.mpr
        ⟨q', List.mem_of_find?_eq_some hfind, List.find?_some hfind⟩)
        (by rw [hany']; exact Bool.false_ne_true)

theorem find?_jsSetMap_ne {α : Type} (m : JSMap α) (k' k : String) (v : α)
    (h : (k' == k) = false) :
    (m.map (fun p => if p.1 == k' then (k', v) else p)).find? (fun p => p.1 == k)
      = m.find? (fun p => p.1 == k) := by
  rw [List.find?_map]
  have hpred : ((fun p => p.1 == k) ∘ (fun p : String × α =>
      if p.1 == k' then (k', v) else p)) = (fun p : String × α => p.1 == k) := by
    funext p
    by_cases hp : (p.1 == k') = true
    · have hpk : p.1 = k' := by simpa using hp
      simp [Function.comp, hp, hpk, h]
    · have hp' : (p.1 == k') = false := by simpa using hp
      simp [Function.comp, hp']
  rw [hpred]
  cases hfind : m.find? (fun p => p.1 == k) with
  | none => rfl
  | some q =>
    have hq := List.find?_some hfind
    have hqk : q.1 = k := by simpa using hq
    have hqne : (q.1 == k') = false := by
      rw [hqk]
      by_cases hkk : (k == k') = true
      · have hke : k = k' := by simpa using hkk
        rw [hke] at h
        exact absurd h (by simp)
      · simpa using hkk
    have hqnek : ¬ q.1 = k' := by simpa using hqne
    simp [hqnek]

theorem jsGet_jsSet {α : Type} (m : JSMap α) (k' : String) (v : α) (k : String) :
    jsGet (jsSet m k' v) k = if (k' == k) = true then some v else jsGet m k := by
  unfold jsSet jsGet
  by_cases hp : (m.any (fun p => p.1 == k')) = true
  · simp only [hp, if_pos]
    by_cases hk : (k' == k) = true
    · have hkk : k' = k := by simpa using hk
      subst hkk
      rw [find?_jsSetMap_self, hp]
      simp [hk]
    · have hk' : (k' == k) = false := by simpa using hk
      rw [find?_jsSetMap_ne m k' k v hk']
      simp [hk']
  · have hp' : (m.any (fun p => p.1 == k')) = false := by
      cases hb : (m.any (fun p => p.1 == k')) with
      | true => exact absurd hb hp
      | false => rfl
    rw [hp']
    rw [if_neg (by simp), List.find?_append]
    by_cases hk : (k' == k) = true
    · have hnone : (m.find? (fun p => p.1 == k)) = none := by
        cases hfind : m.find? (fun p => p.1 == k) with
        | none => rfl
        | some q =>
          have hqmem := List.mem_of_find?_eq_some hfind
          have hqk := List.find?_some hfind
          have hkk : k' = k := by simpa using hk
          have : m.any (fun p => p.1 == k') = true := by
            subst hkk
            exact List.any_eq_true.mpr ⟨q, hqmem, hqk⟩
          exact absurd this (by simpa using hp)
      rw [hnone]
      simp [List.find?_cons, hk]
    · have hk' : (k' == k) = false := by simpa using hk
      simp only [hk', if_neg]
      cases hfind : m.find? (fun p => p.1 == k) with
      | none => simp [Option.or, List.find?_cons, hk']
      | some q => simp [Option.or]

theorem jsGet_foldl_jsSet {α : Type} (key : α → String) (l : List α)
    (m : JSMap α) (k : String) :
    jsGet (l.foldl (fun m a => jsSet m (key a) a) m) k
      = (l.reverse.find? (fun a => key a == k)).or (jsGet m k) := by
  induction l generalizing m with
  | nil => simp
  | cons a l ih =>
    rw [List.foldl_cons, ih, List.reverse_cons, List.find?_append]
    cases h : l.reverse.find? (fun a => key a == k) with
    | some b => simp
    | none =>
      simp only [Option.none_or]
      rw [jsGet_jsSet]
      by_cases hk : (key a == k) = true
      · simp [List.find?_cons, hk]
      · have hk' : (key a == k) = false := by simpa using hk
        simp [List.find?_cons, hk']

/-- `jsGet` on a map built from a list returns the value of the LAST
element of the list whose key matches (later `set`s overwrite). -/
theorem jsGet_buildMap {α : Type} (key : α → String) (l : List α) (k : String) :
    jsGet (buildMap key l) k = l.reverse.find? (fun a => key a == k) := by
  unfold buildMap
  rw [jsGet_foldl_jsSet]
  simp [jsGet]

/-- `jsHas` on a built map is plain membership of the key. -/
theorem jsHas_buildMap {α : Type} (key : α → String) (l : List α) (k : String) :
    jsHas (buildMap key l) k = l.any (fun a => key a == k) := by
  unfold jsHas
  rw [jsGet_buildMap]
  cases h : l.reverse.find? (fun a => key a == k) with
  | none =>
    have : ¬ ∃ x, x ∈ l.reverse ∧ (key x == k) = true := by
      intro hex
      have := List.find?_isSome.mpr hex
      rw [h] at this
      simp at this
    have : l.reverse.any (fun a => key a == k) = false := by
      rw [← Bool.not_eq_true]
      intro hc
      exact this (List.any_eq_true.mp hc)
    rw [Option.isSome_none, ← List.any_reverse, this]
  | some b =>
    have hmem := List.mem_of_find?_eq_some h
    have hb := List.find?_some h
    have : l.reverse.any (fun a => key a == k) = true :=
      List.any_eq_true.mpr ⟨b, hmem, hb⟩
    rw [Option.isSome_some, ← List.any_reverse, this]

/-! ### Lemmas about the export loops -/

/-- The `for ... break` pod-recovery loop of the VPC branch of
`generateCSV` is a first-match search. -/
theorem findProtpathsPod_eq_find (A : List PathAttachment) (n1 n2 d : String) :
    findProtpathsPod A n1 n2 d
      = match A.find? (fun att =>
          protpathsCapture att.fullPath == some (n1, n2)) with
        | some att => att.pod
        | none => d := by
  induction A with
  | nil => rfl
  | cons att rest ih =>
    unfold findProtpathsPod
    cases hc : protpathsCapture att.fullPath with
    | none =>
      have hpred : ¬ ((protpathsCapture att.fullPath == some (n1, n2)) = true) := by
        rw [hc]
        intro hcon
        exact Bool.false_ne_true hcon
      rw [@List.find?_cons_of_neg _ (fun att =>
        protpathsCapture att.fullPath == some (n1, n2)) att rest hpred]
      exact ih
    | some ab =>
      obtain ⟨a, b⟩ := ab
      by_cases hab : (a == n1 && b == n2) = true
      · have hpred : (protpathsCapture att.fullPath == some (n1, n2)) = true := by
          rw [hc]
          exact hab
        rw [@List.find?_cons_of_pos _ (fun att =>
          protpathsCapture att.fullPath == some (n1, n2)) att rest hpred]
        dsimp only
        rw [if_pos hab]
      · have hpred : ¬ ((protpathsCapture att.fullPath == some (n1, n2)) = true) := by
          rw [hc]
          intro hcon
          exact hab hcon
        rw [@List.find?_cons_of_neg _ (fun att =>
          protpathsCapture att.fullPath == some (n1, n2)) att rest hpred]
        dsimp only
        rw [if_neg (fun hcon => hab hcon)]
        exact ih

/-- `defaultPod` of `generateCSV` is the pod of the first VLAN-matching
attachment (else `pod-1`). -/
theorem defaultPodOf_eq_find (vlan : String) (A : List PathAttachment) :
    defaultPodOf vlan A
      = match A.find? (fun att => att.vlan == vlan) with
        | some a => a.pod
        | none => "pod-1" := by
  induction A with
  | nil => rfl
  | cons att rest ih =>
    unfold defaultPodOf
    cases hv : att.vlan == vlan with
    | true =>
      rw [List.filter_cons_of_pos (by exact hv),
        @List.find?_cons_of_pos _ (fun att => att.vlan == vlan) att rest
          (by exact hv)]
    | false =>
      rw [List.filter_cons_of_neg (by simp [hv]),
        @List.find?_cons_of_neg _ (fun att => att.vlan == vlan) att rest
          (by simp [hv])]
      exact ih

/-! ### Claims about `validateVlanAllowances` -/

/-- C1: `validateVlanAllowances(E, A)` returns exactly one
`ValidationResult` per element of `E.paths`, in the same order, and a
result's status is `allowed` iff some attachment in `A` has `vlan` equal
to `E.vlan` and a path equal to the endpoint path under normalization
(trim, strip square brackets, lowercase). -/
theorem validateVlanAllowances_one_result_per_path
    (E : EndpointData) (A : List PathAttachment) :
    validateVlanAllowances E A = E.paths.map (fun p =>
      { path := p
        hasActiveEndpoint := true
        isVlanAllowed := A.any (fun att => att.vlan == E.vlan &&
          normalizePathName att.path == normalizePathName p)
        status := if A.any (fun att => att.vlan == E.vlan &&
            normalizePathName att.path == normalizePathName p)
          then Status.allowed else Status.not_allowed })
    ∧ ∀ r ∈ validateVlanAllowances E A,
        (r.status = Status.allowed ↔ ∃ att ∈ A, att.vlan = E.vlan ∧
          normalizePathName att.path = normalizePathName r.path) := by
  have key : ∀ p : String,
      jsHas (buildMap (fun att => normalizePathName att.path)
        (A.filter (fun att => att.vlan == E.vlan))) (normalizePathName p)
      = A.any (fun att => att.vlan == E.vlan &&
          normalizePathName att.path == normalizePathName p) := by
    intro p
    rw [jsHas_buildMap, List.any_filter]
  have hmain : validateVlanAllowances E A = E.paths.map (fun p =>
      { path := p
        hasActiveEndpoint := true
        isVlanAllowed := A.any (fun att => att.vlan == E.vlan &&
          normalizePathName att.path == normalizePathName p)
        status := if A.any (fun att => att.vlan == E.vlan &&
            normalizePathName att.path == normalizePathName p)
          then Status.allowed else Status.not_allowed }) := by
    unfold validateVlanAllowances
    refine List.map_congr_left ?_
    intro p _
    show ({ path := p
            hasActiveEndpoint := true
            isVlanAllowed := jsHas (buildMap (fun att => normalizePathName att.path)
              (A.filter (fun att => att.vlan == E.vlan))) (normalizePathName p)
            status := if jsHas (buildMap (fun att => normalizePathName att.path)
                (A.filter (fun att => att.vlan == E.vlan))) (normalizePathName p)
              then Status.allowed else Status.not_allowed } : ValidationResult) = _
    rw [key p]
  refine ⟨hmain, ?_⟩
  intro r hr
  rw [hmain] at hr
  obtain ⟨p, _, hp⟩ := List.mem_map.mp hr
  subst hp
  by_cases h : A.any (fun att => att.vlan == E.vlan &&
      normalizePathName att.path == normalizePathName p) = true
  · constructor
    · intro _
      obtain ⟨att, hmem, hatt⟩ := List.any_eq_true.mp h
      obtain ⟨h1, h2⟩ := (Bool.and_eq_true _ _).mp hatt
      exact ⟨att, hmem, by simpa using h1, by simpa using h2⟩
    · intro _
      show (if A.any (fun att => att.vlan == E.vlan &&
          normalizePathName att.path == normalizePathName p)
        then Status.allowed else Status.not_allowed) = Status.allowed
      rw [h]
      rfl
  · have h' : A.any (fun att => att.vlan == E.vlan &&
        normalizePathName att.path == normalizePathName p) = false := by
      simpa using h
    constructor
    · intro hc
      exfalso
      have : (if A.any (fun att => att.vlan == E.vlan &&
          normalizePathName att.path == normalizePathName p)
        then Status.allowed else Status.not_allowed) = Status.allowed := hc
      rw [h'] at this
      exact absurd this (by decide)
    · intro ⟨att, hmem, hv, hp⟩
      exfalso
      apply h
      exact List.any_eq_true.mpr ⟨att, hmem, by simp [hv, hp]⟩

/-- C1 witness: a concrete endpoint with two paths against one matching
attachment, instantiating the allowed-iff characterization. -/
theorem validateVlanAllowances_one_result_per_path_witness :
    ({ path := "eth1/5", hasActiveEndpoint := true, isVlanAllowed := true,
       status := Status.allowed } : ValidationResult).status = Status.allowed
    ↔ ∃ att ∈ [({ vlan := "713", epg := "e", path := "[ETH1/5]",
                  fullPath := "pod-1/paths-303/pathep-[eth1/5]",
                  pod := "pod-1" } : PathAttachment)],
        att.vlan = ({ vlan := "713", ip := "", paths := ["eth1/5", "eth1/6"],
                      pod := "", pathsWithNodes := [],
                      pathsWithIPs := [] } : EndpointData).vlan ∧
        normalizePathName att.path = normalizePathName
          ({ path := "eth1/5", hasActiveEndpoint := true, isVlanAllowed := true,
             status := Status.allowed } : ValidationResult).path :=
  (validateVlanAllowances_one_result_per_path
    { vlan := "713", ip := "", paths := ["eth1/5", "eth1/6"], pod := "",
      pathsWithNodes := [], pathsWithIPs := [] }
    [{ vlan := "713", epg := "e", path := "[ETH1/5]",
       fullPath := "pod-1/paths-303/pathep-[eth1/5]", pod := "pod-1" }]).2
    { path := "eth1/5", hasActiveEndpoint := true, isVlanAllowed := true,
      status := Status.allowed } (by decide)

/-- C3: with an empty attachment list, `validateVlanAllowances` yields one
result per endpoint path (same order) and every result is `not_allowed`:
deny-by-default on absent attachment data. -/
theorem validateVlanAllowances_empty_attachments_denies
    (E : EndpointData) :
    (validateVlanAllowances E []).map (fun r => r.path) = E.paths
    ∧ (validateVlanAllowances E []).all
        (fun r => r.status == Status.not_allowed) = true := by
  have h1 : validateVlanAllowances E [] = E.paths.map
      (fun p => { path := p, hasActiveEndpoint := true, isVlanAllowed := false,
                  status := Status.not_allowed }) := rfl
  constructor
  · rw [h1, List.map_map]
    exact List.map_id E.paths
  · rw [h1, List.all_eq_true]
    intro r hr
    obtain ⟨p, _, hp⟩ := List.mem_map.mp hr
    subst hp
    rfl

/-- C9: every produced `ValidationResult` satisfies the field-coupling
invariant: `isVlanAllowed` is true iff `status` is `allowed`, and
`hasActiveEndpoint` is always true. -/
theorem validateVlanAllowances_field_coupling
    (E : EndpointData) (A : List PathAttachment) :
    (validateVlanAllowances E A).all (fun r =>
      (r.isVlanAllowed == (r.status == Status.allowed))
        && r.hasActiveEndpoint) = true := by
  unfold validateVlanAllowances
  rw [List.all_eq_true]
  intro r hr
  obtain ⟨p, _, hp⟩ := List.mem_map.mp hr
  subst hp
  cases h : jsHas (buildMap (fun att => normalizePathName att.path)
      (A.filter (fun att => att.vlan == E.vlan))) (normalizePathName p) with
  | true =>
    simp [h]
    rfl
  | false =>
    simp [h]
    rfl

/-- C7: `parseMoqueryOutput` applied to the single concrete VPC line
yields exactly one record with vlan `623`, path `425-426-VPC-31-32-PG`,
pod `pod-2`, and the byte-for-byte reconstructed `fullPath`. -/
theorem parseMoqueryOutput_vpc_roundtrip :
    parseMoqueryOutput
      "dn : uni/tn-T/ap-A/epg-EPG-VLAN623-x/rspathAtt-[topology/pod-2/protpaths-425-426/pathep-[425-426-VPC-31-32-PG]]"
    = [{ vlan := "623", epg := "EPG-VLAN623-x", path := "425-426-VPC-31-32-PG",
         fullPath := "pod-2/protpaths-425-426/pathep-[425-426-VPC-31-32-PG]",
         pod := "pod-2" }] := by
  decide

/-- C8: `parseMoqueryOutput` (a total function) processes each line
independently: a line matching neither distinguished-name pattern
contributes no record, and replacing any one line of the processed line
list by such a line leaves the records of all other lines unchanged, in
order. -/
theorem parseMoqueryOutput_line_independent (input : String)
    (ls : List String) (i : Nat) (c : String)
    (hc : parseMoqueryLine c = none) :
    parseMoqueryOutput input = (jsLines (jsTrim input)).filterMap parseMoqueryLine
    ∧ (∀ line : String, scanFirst (matchDnAt true) line.data = none →
        scanFirst (matchDnAt false) line.data = none →
        parseMoqueryLine line = none)
    ∧ (ls.set i c).filterMap parseMoqueryLine
        = (ls.take i).filterMap parseMoqueryLine
          ++ (ls.drop (i + 1)).filterMap parseMoqueryLine := by
  refine ⟨rfl, ?_, ?_⟩
  · intro line h1 h2
    unfold parseMoqueryLine
    rw [h1, h2]
    split <;> rfl
  · induction ls generalizing i with
    | nil => simp
    | cons x xs ih =>
      cases i with
      | zero =>
        simp [List.filterMap_cons, hc]
      | succ j =>
        simp only [List.set_cons_succ, List.filterMap_cons, List.take_succ_cons,
          List.drop_succ_cons]
        cases hx : parseMoqueryLine x with
        | none => exact ih j
        | some a =>
          rw [ih j]
          rfl

/-- C8 witness: a two-line blob where the second line is corrupted — the
first line's record survives unchanged. -/
theorem parseMoqueryOutput_line_independent_witness :
    (["dn : uni/tn-T/ap-A/epg-EPG-VLAN623-x/rspathAtt-[topology/pod-2/protpaths-425-426/pathep-[425-426-VPC-31-32-PG]]",
      "dn : uni/tn-T/ap-A/epg-EPG-VLAN7-y/rspathAtt-[topology/pod-1/paths-303/pathep-[eth1/5]]"].set
        1 "garbage line").filterMap parseMoqueryLine
    = (["dn : uni/tn-T/ap-A/epg-EPG-VLAN623-x/rspathAtt-[topology/pod-2/protpaths-425-426/pathep-[425-426-VPC-31-32-PG]]",
        "dn : uni/tn-T/ap-A/epg-EPG-VLAN7-y/rspathAtt-[topology/pod-1/paths-303/pathep-[eth1/5]]"].take
          1).filterMap parseMoqueryLine
      ++ (["dn : uni/tn-T/ap-A/epg-EPG-VLAN623-x/rspathAtt-[topology/pod-2/protpaths-425-426/pathep-[425-426-VPC-31-32-PG]]",
           "dn : uni/tn-T/ap-A/epg-EPG-VLAN7-y/rspathAtt-[topology/pod-1/paths-303/pathep-[eth1/5]]"].drop
            2).filterMap parseMoqueryLine :=
  (parseMoqueryOutput_line_independent ""
    ["dn : uni/tn-T/ap-A/epg-EPG-VLAN623-x/rspathAtt-[topology/pod-2/protpaths-425-426/pathep-[425-426-VPC-31-32-PG]]",
     "dn : uni/tn-T/ap-A/epg-EPG-VLAN7-y/rspathAtt-[topology/pod-1/paths-303/pathep-[eth1/5]]"]
    1 "garbage line" (by decide)).2.2

/-- C10: the exact-match step of `generateCSV` is not filtered by VLAN:
whenever some attachment's normalized path equals the denied path's
normalized name, the emitted row is `vlan,epg,` followed by the verbatim
`fullPath` of the LAST such attachment in list order — no condition on
that attachment's vlan.  The second conjunct ties the per-path row to the
full CSV output. -/
theorem generateCSV_exact_match_ignores_vlan
    (vlan epg : String) (A : List PathAttachment) (p : String)
    (att : PathAttachment)
    (hlast : A.reverse.find? (fun a =>
        normalizePathName a.path == normalizePathName p) = some att) :
    generateCSVRow vlan epg A p = vlan ++ "," ++ epg ++ "," ++ att.fullPath
    ∧ ∀ (results : List ValidationResult) (E : EndpointData),
        generateCSV vlan epg results E A
          = "VLAN,EPG,PATH" ++ "\n" ++ String.intercalate "\n"
            (((results.filter (fun r => r.status == Status.not_allowed)).map
              (fun r => r.path)).map (generateCSVRow vlan epg A)) := by
  constructor
  · unfold generateCSVRow
    simp only [jsGet_buildMap, hlast]
  · intro results E
    rfl

/-- C10 witness: two attachments match the denied path after
normalization; the row reuses the second (last) one's `fullPath`, though
both vlans differ from the vlan argument `623`. -/
theorem generateCSV_exact_match_ignores_vlan_witness :
    generateCSVRow "623" "epg-x"
      [{ vlan := "111", epg := "e1", path := "p1",
         fullPath := "pod-3/paths-1/pathep-[p1]", pod := "pod-3" },
       { vlan := "222", epg := "e2", path := "[P1]",
         fullPath := "pod-7/paths-2/pathep-[P1]", pod := "pod-7" }] "p1"
    = "623" ++ "," ++ "epg-x" ++ ","
      ++ ({ vlan := "222", epg := "e2", path := "[P1]",
            fullPath := "pod-7/paths-2/pathep-[P1]",
            pod := "pod-7" } : PathAttachment).fullPath :=
  (generateCSV_exact_match_ignores_vlan "623" "epg-x"
    [{ vlan := "111", epg := "e1", path := "p1",
       fullPath := "pod-3/paths-1/pathep-[p1]", pod := "pod-3" },
     { vlan := "222", epg := "e2", path := "[P1]",
       fullPath := "pod-7/paths-2/pathep-[P1]", pod := "pod-7" }] "p1"
    { vlan := "222", epg := "e2", path := "[P1]",
      fullPath := "pod-7/paths-2/pathep-[P1]", pod := "pod-7" }
    (by decide)).1

/-- C6 counterexample: the claim reads "pod of the first attachment whose
`fullPath` CONTAINS `protpaths-<n1>-<n2>`".  Here the attachment's
`fullPath` contains the substring `protpaths-1-2` (inside
`protpaths-1-23`), so the claim dictates its pod `pod-9`; the code
compares the regex captures `("1","23")` against `("1","2")`, rejects the
attachment, and falls back to `pod-1`. -/
theorem generateCSV_vpc_pod_containment_counterexample :
    strIncludes "pod-9/protpaths-1-23/pathep-[z]" "protpaths-1-2" = true
    ∧ vpcNodesOf "1-2-VPC-5-6-PG" = some ("1", "2")
    ∧ ¬ normalizePathName "z" = normalizePathName "1-2-VPC-5-6-PG"
    ∧ generateCSVRow "623" "epg-x"
        [{ vlan := "7", epg := "e", path := "z",
           fullPath := "pod-9/protpaths-1-23/pathep-[z]", pod := "pod-9" }]
        "1-2-VPC-5-6-PG"
      = "623,epg-x,pod-1/protpaths-1-2/pathep-[1-2-VPC-5-6-PG]"
    ∧ ¬ ("623,epg-x,pod-1/protpaths-1-2/pathep-[1-2-VPC-5-6-PG]" : String)
        = "623,epg-x,pod-9/protpaths-1-2/pathep-[1-2-VPC-5-6-PG]" := by
  decide

/-- C6 (amended): for a denied path whose leftmost VPC match yields
`(node1, node2)` and that has no exact normalized match among the
attachments, the emitted row's path is
`<pod>/protpaths-<node1>-<node2>/pathep-[<path>]`, where `pod` is the pod
of the first attachment whose `fullPath`'s first
`protpaths-<a>-<b>` occurrence satisfies `a = node1` and `b = node2`
(capture equality, not substring containment); if none exists, the pod of
the first attachment whose vlan equals the vlan argument; if none exists,
the literal `pod-1`. -/
theorem generateCSVRow_vpc_pod_resolution
    (vlan epg : String) (A : List PathAttachment) (p node1 node2 : String)
    (hnomatch : ∀ att ∈ A, ¬ normalizePathName att.path = normalizePathName p)
    (hvpc : vpcNodesOf p = some (node1, node2)) :
    generateCSVRow vlan epg A p
      = vlan ++ "," ++ epg ++ ","
        ++ (match A.find? (fun att =>
              protpathsCapture att.fullPath == some (node1, node2)) with
            | some att => att.pod
            | none =>
              match A.find? (fun att => att.vlan == vlan) with
              | some a => a.pod
              | none => "pod-1")
        ++ "/protpaths-" ++ node1 ++ "-" ++ node2 ++ "/pathep-[" ++ p ++ "]" := by
  have hget : A.reverse.find? (fun a =>
      normalizePathName a.path == normalizePathName p) = none := by
    apply List.find?_eq_none.mpr
    intro a ha
    have hmem : a ∈ A := by simpa using ha
    simpa using hnomatch a hmem
  unfold generateCSVRow
  simp only [jsGet_buildMap, hget, hvpc]
  rw [findProtpathsPod_eq_find, defaultPodOf_eq_find]

/-- C6 witness: with one attachment whose `fullPath` carries exactly
`protpaths-425-426`, the row adopts its pod `pod-5`. -/
theorem generateCSVRow_vpc_pod_resolution_witness :
    generateCSVRow "623" "epg-x"
      [{ vlan := "9", epg := "e", path := "q",
         fullPath := "pod-5/protpaths-425-426/pathep-[q]", pod := "pod-5" }]
      "425-426-VPC-31-32-PG"
    = "623,epg-x,pod-5/protpaths-425-426/pathep-[425-426-VPC-31-32-PG]" :=
  (generateCSVRow_vpc_pod_resolution "623" "epg-x"
    [{ vlan := "9", epg := "e", path := "q",
       fullPath := "pod-5/protpaths-425-426/pathep-[q]", pod := "pod-5" }]
    "425-426-VPC-31-32-PG" "425" "426" (by decide) (by decide)).trans
    (by decide)

/-- C2 counterexample: on identical inputs (vlan `623`, EPG label
`epg-x`, one denied VPC path, empty attachment list) the bulk CSV export
and the single-entry export helper produce different rows — `pod-1`
versus `pod-2`. -/
theorem export_rows_equal_counterexample :
    ¬ generateCSVRow "623" "epg-x" [] "425-426-VPC-31-32-PG"
        = appExportRow "623" "epg-x" [] "425-426-VPC-31-32-PG"
    ∧ generateCSV "623" "epg-x"
        [{ path := "425-426-VPC-31-32-PG", hasActiveEndpoint := true,
           isVlanAllowed := false, status := Status.not_allowed }]
        { vlan := "623", ip := "", paths := ["425-426-VPC-31-32-PG"],
          pod := "", pathsWithNodes := [], pathsWithIPs := [] } []
      = "VLAN,EPG,PATH\n623,epg-x,pod-1/protpaths-425-426/pathep-[425-426-VPC-31-32-PG]"
    ∧ appExportRow "623" "epg-x" [] "425-426-VPC-31-32-PG"
      = "623,epg-x,pod-2/protpaths-425-426/pathep-[425-426-VPC-31-32-PG]" := by
  decide

/-- C2 (amended): the two export call sites are NOT extensionally equal.
On identical inputs where no attachment informs the pod (empty attachment
list, digit-shaped VPC denied path) the two rows agree except for the
default pod: `generateCSV` falls back to the literal `pod-1` while the
per-denied-path loop of `handleExportAllCSV` falls back to `pod-2`. -/
theorem export_rows_default_pod_divergence (vlan epg : String) :
    generateCSVRow vlan epg [] "425-426-VPC-31-32-PG"
      = vlan ++ "," ++ epg ++ "," ++ "pod-1" ++ "/protpaths-" ++ "425" ++ "-"
        ++ "426" ++ "/pathep-[" ++ "425-426-VPC-31-32-PG" ++ "]"
    ∧ appExportRow vlan epg [] "425-426-VPC-31-32-PG"
      = vlan ++ "," ++ epg ++ "," ++ "pod-2" ++ "/protpaths-" ++ "425" ++ "-"
        ++ "426" ++ "/pathep-[" ++ "425-426-VPC-31-32-PG" ++ "]" :=
  ⟨rfl, rfl⟩

/-- C4: `parseEndpointOutput` (a total Lean function — the embedded code
never throws) returns `none` iff the line scan extracted no
`vlan-<digits>` token or an empty path set; every returned record has a
non-empty vlan and a non-empty path list. -/
theorem parseEndpointOutput_none_iff (input : String) :
    (parseEndpointOutput input = none ↔
      (endpointScan input).vlan = "" ∨ (endpointScan input).pathSet = [])
    ∧ ∀ r : EndpointData, parseEndpointOutput input = some r →
        ¬ r.vlan = "" ∧ ¬ r.paths = [] := by
  unfold parseEndpointOutput
  by_cases hc : ((endpointScan input).vlan != ""
      && decide ((endpointScan input).pathSet.length > 0)) = true
  · rw [if_pos hc]
    obtain ⟨h1, h2⟩ := Bool.and_eq_true .. |>.mp hc
    have hv : ¬ (endpointScan input).vlan = "" := by simpa using h1
    have hp : ¬ (endpointScan input).pathSet = [] :=
      List.length_pos.mp (of_decide_eq_true h2)
    constructor
    · constructor
      · intro hsome
        cases hsome
      · intro hor
        exfalso
        cases hor with
        | inl h => exact hv h
        | inr h => exact hp h
    · intro r hr
      injection hr with hrec
      rw [← hrec]
      exact ⟨hv, hp⟩
  · rw [if_neg hc]
    have hor : (endpointScan input).vlan = "" ∨ (endpointScan input).pathSet = [] := by
      by_cases hv : (endpointScan input).vlan = ""
      · exact Or.inl hv
      · right
        by_cases hp : (endpointScan input).pathSet = []
        · exact hp
        · exfalso
          apply hc
          rw [Bool.and_eq_true]
          exact ⟨by simpa using hv, decide_eq_true (List.length_pos.mpr hp)⟩
    exact ⟨⟨fun _ => hor, fun _ => rfl⟩, fun r hr => by cases hr⟩

/-- C4 witness: a concrete endpoint line that parses to a record, whose
vlan and path list are non-empty. -/
theorem parseEndpointOutput_none_iff_witness :
    ¬ ({ vlan := "713", ip := "", paths := ["eth1/5"], pod := "",
         pathsWithNodes := [("eth1/5", "303")],
         pathsWithIPs := [] } : EndpointData).vlan = ""
    ∧ ¬ ({ vlan := "713", ip := "", paths := ["eth1/5"], pod := "",
           pathsWithNodes := [("eth1/5", "303")],
           pathsWithIPs := [] } : EndpointData).paths = [] :=
  (parseEndpointOutput_none_iff "303  eth1/5  up vlan-713").2
    { vlan := "713", ip := "", paths := ["eth1/5"], pod := "",
      pathsWithNodes := [("eth1/5", "303")], pathsWithIPs := [] }
    (by decide)

/-- C5 counterexample: the header check of `parseEndpointOutput` is
`line.includes('Node') && line.includes('Interface')` — case-SENSITIVE.
This line contains a `node` token and an `interface` token when matched
case-insensitively (the claim's reading), yet it is not skipped: it
contributes both a VLAN and a path to the returned record. -/
theorem parseEndpointOutput_header_case_counterexample :
    strIncludes
      (String.mk ("node 303  eth1/5  x vlan-713 interface".data.map Char.toLower))
      "node" = true
    ∧ strIncludes
        (String.mk ("node 303  eth1/5  x vlan-713 interface".data.map Char.toLower))
        "interface" = true
    ∧ parseEndpointOutput "node 303  eth1/5  x vlan-713 interface"
      = some { vlan := "713", ip := "", paths := ["eth1/5"], pod := "",
               pathsWithNodes := [("eth1/5", "303")], pathsWithIPs := [] }
    ∧ ¬ processEndpointLine initEPState "node 303  eth1/5  x vlan-713 interface"
        = initEPState := by
  decide

/-- C5 (amended): every blank line, and every line containing both the
exact-case tokens `Node` and `Interface` (the source's case-SENSITIVE
`includes` check, unlike the claim's case-insensitive reading), is
skipped entirely by the line loop of `parseEndpointOutput`: the state is
unchanged, so the line contributes no VLAN, no IP and no path; the fold
of this step over the split input is exactly what `parseEndpointOutput`
consumes. -/
theorem processEndpointLine_skips_blank_and_header
    (st : EPState) (line : String)
    (h : jsTrim line = ""
      ∨ (strIncludes line "Node" = true ∧ strIncludes line "Interface" = true)) :
    processEndpointLine st line = st
    ∧ ∀ input : String,
        endpointScan input = (jsLines (jsTrim input)).foldl processEndpointLine
          initEPState := by
  have hcond : (jsTrim line == ""
      || (strIncludes line "Node" && strIncludes line "Interface")) = true := by
    cases h with
    | inl hb => rw [hb]; simp
    | inr hni => rw [hni.1, hni.2]; simp
  constructor
  · unfold processEndpointLine
    rw [if_pos hcond]
  · intro input
    rfl

/-- C5 witness: the same line as the counterexample but with the
source's exact-case tokens is skipped: the state is unchanged. -/
theorem processEndpointLine_skips_blank_and_header_witness :
    processEndpointLine initEPState "Node 303  eth1/5  x vlan-713 Interface"
      = initEPState
    ∧ endpointScan "" = (jsLines (jsTrim "")).foldl processEndpointLine
        initEPState :=
  ⟨(processEndpointLine_skips_blank_and_header initEPState
      "Node 303  eth1/5  x vlan-713 Interface"
      (Or.inr ⟨by decide, by decide⟩)).1,
   (processEndpointLine_skips_blank_and_header initEPState
      "Node 303  eth1/5  x vlan-713 Interface"
      (Or.inr ⟨by decide, by decide⟩)).2 ""⟩

end Apic
